import Mathlib

/-!
Shallow embedding of the algo_desk repository.

Two source files are modelled:
* `app.py` — the session manager: OAuth-style code exchange, token
  persistence in `.streamlit/token.yaml`, profile fetch, logout, and the
  per-script-pass control flow of its `main()`.
* `pages/dashboard.py` — the market poller: a `deque(maxlen=100)` of
  price samples, the last-price/change display, the positions fetch, and
  the page's login guard.

Machine conventions: HTTP interactions are modelled by an `HttpResult`
value (a parsed status/body pair, or a raised transport exception);
prices are rationals; timestamps are naturals; Python truthiness of the
relevant values (`None`, `""`, `0`, empty dict) is modelled explicitly.
-/

namespace AlgoDesk

/-! ## Definitions -/

/-- Outcome of an HTTP call made inside a `try`/`except` block: a parsed
response carrying a status code and a JSON body, or a raised transport
exception (the `except` branch). -/
inductive HttpResult (β : Type) where
  | response (status : Nat) (body : β)
  | exception
deriving DecidableEq

/-- One element appended to `st.session_state.market_data`
(dashboard.py lines 125-128): a dict with a timestamp and a price. -/
structure PriceSample where
  time : Nat
  price : ℚ
deriving DecidableEq

/-- dashboard.py line 50: `st.session_state.market_data = deque(maxlen=100)`.
Appending to a deque that is at its maximum length first discards the
leftmost (oldest) element. -/
def recordSample (buf : List PriceSample) (s : PriceSample) : List PriceSample :=
  if buf.length ≥ 100 then buf.tail ++ [s] else buf ++ [s]

/-- The change metric rendered at dashboard.py lines 160-169: the magnitude
of the price change, the sign character (`'+'` when `change >= 0`, else
`'-'`), and the magnitude of the percentage change. -/
structure ChangeDisplay where
  deltaAbs : ℚ
  signPlus : Bool
  pctAbs : ℚ
deriving DecidableEq

/-- dashboard.py lines 162-169: when `len(market_data) > 1`, the code takes
`old_price = list(market_data)[-2].price`, `change = last_price - old_price`
and renders `abs(change)`, a sign from `change >= 0`, and
`abs(change / old_price * 100)`; with one or zero samples nothing is
rendered (no value). -/
def computeChange (last_price : ℚ) (buf : List PriceSample) : Option ChangeDisplay :=
  match buf.reverse with
  | _ :: prev :: _ =>
    let change := last_price - prev.price
    some { deltaAbs := |change|, signPlus := decide (0 ≤ change),
           pctAbs := |change / prev.price * 100| }
  | _ => none

/-- The signed value a reader recovers from the rendered change: the
magnitude with the displayed sign applied. -/
def signedDelta (c : ChangeDisplay) : ℚ :=
  if c.signPlus then c.deltaAbs else -c.deltaAbs

/-- The signed percentage a reader recovers from the rendered change. -/
def signedPct (c : ChangeDisplay) : ℚ :=
  if c.signPlus then c.pctAbs else -c.pctAbs

/-- The `data` object of the LTP quote response body. -/
structure LtpData where
  ltp : Option ℚ
deriving DecidableEq

/-- JSON body of the market-quote response: `json().get('data', {})` may be
absent, and the inner dict may lack the `ltp` key. -/
structure QuoteBody where
  data : Option LtpData
deriving DecidableEq

/-- dashboard.py lines 67-80 (`UpstoxDashboard.get_market_data`): on HTTP
200 returns `response.json().get('data', {}).get('ltp')`; on any other
status returns None; on a transport exception shows an error message and
returns None. -/
def get_market_data (r : HttpResult QuoteBody) : Option ℚ :=
  match r with
  | HttpResult.response status body =>
    if status = 200 then
      match body.data with
      | some d => d.ltp
      | none => none
    else none
  | HttpResult.exception => none

/-- Whether `get_market_data` surfaces an error via `st.error`: only the
`except` (transport-exception) branch does (dashboard.py line 79). -/
def get_market_data_shows_error (r : HttpResult QuoteBody) : Bool :=
  match r with
  | HttpResult.response _ _ => false
  | HttpResult.exception => true

/-- A broker-reported position row (dashboard.py line 222). -/
structure PositionSnapshot where
  symbol : String
  quantity : Int
  last_price : ℚ
  pnl : ℚ
deriving DecidableEq

/-- JSON body of the positions response: `json().get('data', [])`. -/
structure PositionsBody where
  data : Option (List PositionSnapshot)
deriving DecidableEq

/-- dashboard.py lines 82-93 (`UpstoxDashboard.get_positions`): on HTTP 200
returns `response.json().get('data', [])`; on any other status returns the
empty list; on a transport exception shows an error message and returns
the empty list. -/
def get_positions (r : HttpResult PositionsBody) : List PositionSnapshot :=
  match r with
  | HttpResult.response status body =>
    if status = 200 then body.data.getD [] else []
  | HttpResult.exception => []

/-- The poller's session state: `st.session_state.market_data` and
`st.session_state.last_price` (dashboard.py lines 49-52). -/
structure PollerState where
  market_data : List PriceSample
  last_price : Option ℚ
deriving DecidableEq

/-- dashboard.py lines 121-128: one polling pass for the selected symbol.
`price = get_market_data(...)`; `if price:` (truthy: not None and not
zero) sets `last_price` and appends a sample; otherwise the state is left
unchanged. -/
def pollStep (s : PollerState) (now : Nat) (r : HttpResult QuoteBody) : PollerState :=
  match get_market_data r with
  | some price =>
    if price ≠ 0 then
      { market_data := recordSample s.market_data { time := now, price := price },
        last_price := some price }
    else s
  | none => s

/-- The poller's initial session state (dashboard.py lines 49-52): empty
sample deque and no last price. -/
def pollInit : PollerState := { market_data := [], last_price := none }

/-- The poller state after a sequence of polling passes, each given its
timestamp and fetch outcome, starting from the fresh-process state. -/
def foldPoll (steps : List (Nat × HttpResult QuoteBody)) : PollerState :=
  List.foldl (fun s nr => pollStep s nr.1 nr.2) pollInit steps

/-- A concrete 100-element buffer used to instantiate the eviction case of
the ring-buffer claim. -/
def buf100 : List PriceSample :=
  (List.range 100).map (fun n => { time := n, price := 1 })

/-- How the dashboard page begins: halted at the login guard, or polling
with the credential read from session state. -/
inductive DashOutcome where
  | halted
  | polled (credential : Option String)
deriving DecidableEq

/-- dashboard.py lines 97-99: the login guard tests
`'access_token' not in st.session_state`. A session entry is modelled as
`Option (Option String)`: `none` means the key is absent, `some v` means
the key is present with value `v` (None or a token). -/
def dashAuthGuardFires (entry : Option (Option String)) : Bool :=
  match entry with
  | none => true
  | some _ => false

/-- dashboard.py line 59: `st.session_state.get('access_token')` — the
value when the key is present, None when it is absent. -/
def sessionGet (entry : Option (Option String)) : Option String :=
  match entry with
  | some v => v
  | none => none

/-- dashboard.py lines 95-101 and 56-59: if the guard fires the page warns
and stops; otherwise `UpstoxDashboard` is built with the session's
credential and the page proceeds to poll. -/
def dashboardEntry (entry : Option (Option String)) : DashOutcome :=
  if dashAuthGuardFires entry then DashOutcome.halted
  else DashOutcome.polled (sessionGet entry)

/-- Python string interpolation of an optional string: `None` prints as
the four characters `None`. -/
def pyStr (v : Option String) : String :=
  match v with
  | none => "None"
  | some s => s

/-- dashboard.py lines 61-65 (`get_headers`): the Authorization header is
the f-string `Bearer ` followed by the interpolated credential. -/
def get_headers_auth (tok : Option String) : String := "Bearer " ++ pyStr tok

/-- A user-profile JSON object (the dict returned by the profile
endpoint), as an association list; Python truthiness is non-emptiness. -/
abbrev Profile := List (String × String)

/-- Python truthiness of `st.session_state.access_token`: `None` and the
empty string are falsy. -/
def tokenTruthy : Option String → Bool
  | none => false
  | some t => decide (t ≠ "")

/-- Python truthiness of `st.session_state.user_profile`: `None` and the
empty dict are falsy. -/
def profileTruthy : Option Profile → Bool
  | none => false
  | some p => decide (p ≠ [])

/-- JSON body of the token-exchange response: `json().get("access_token")`
may be absent. -/
structure TokenBody where
  access_token : Option String
deriving DecidableEq

/-- app.py lines 58-77 (`UpstoxAuth.get_access_token`): on HTTP 200
returns `response.json().get("access_token")`; on any other status shows
an error and returns None; on a transport exception shows an error and
returns None. -/
def get_access_token (r : HttpResult TokenBody) : Option String :=
  match r with
  | HttpResult.response status body =>
    if status = 200 then body.access_token else none
  | HttpResult.exception => none

/-- app.py lines 79-90 (`UpstoxAuth.get_user_profile`): on HTTP 200
returns `response.json()` (the profile dict); on any other status returns
None; on a transport exception shows an error and returns None. -/
def get_user_profile (r : HttpResult Profile) : Option Profile :=
  match r with
  | HttpResult.response status body =>
    if status = 200 then some body else none
  | HttpResult.exception => none

/-- The persisted token file `.streamlit/token.yaml`: `none` means the
file is absent; `some v` means it exists and its dict maps
`access_token` to `v`. -/
abbrev TokenFile := Option (Option String)

/-- app.py lines 92-97 (`save_token`): overwrites the file with the single
mapping `access_token: token`. -/
def save_token (token : String) (_file : TokenFile) : TokenFile :=
  some (some token)

/-- app.py lines 99-106 (`load_token`): if the file exists, returns
`data.get("access_token")`; otherwise returns None. -/
def load_token (file : TokenFile) : Option String :=
  match file with
  | some v => v
  | none => none

/-- app.py line 168: `Path(".streamlit/token.yaml").unlink(missing_ok=True)`
— the logout deletion of the persisted token. -/
def clear_persisted (_file : TokenFile) : TokenFile := none

/-- The session manager's state: the two `st.session_state` entries
(app.py lines 42-46), the persisted token file, and the `code` query
parameter of the page URL. -/
structure AppState where
  access_token : Option String
  user_profile : Option Profile
  file : TokenFile
  query_code : Option String
deriving DecidableEq

/-- The environment of one script pass: the outcome the token-exchange
call would have (app.py line 119), the outcome the profile-fetch call
would have (line 137), and whether the logout button reports a click
(line 165). -/
structure PassInput where
  exchange_http : HttpResult TokenBody
  profile_http : HttpResult Profile
  logout_clicked : Bool
deriving DecidableEq

/-- How a script pass of app.py `main()` ends: `st.rerun()` (the script is
restarted immediately) or a fully rendered frame. -/
inductive Outcome where
  | rerun
  | rendered
deriving DecidableEq

/-- app.py lines 114-125: callback handling. When a `code` query parameter
is present, exchange it; on a truthy token, store it in session state,
save it to the token file, clear the query parameters and rerun. Returns
`some` of the resulting state exactly when the pass ends inside this
block; `none` when control falls through. -/
def callbackPhase (s : AppState) (i : PassInput) : Option (AppState × Outcome) :=
  match s.query_code with
  | some _ =>
    match get_access_token i.exchange_http with
    | some t =>
      if t ≠ "" then
        some ({ access_token := some t, user_profile := s.user_profile,
                file := save_token t s.file, query_code := none }, Outcome.rerun)
      else none
    | none => none
  | none => none

/-- app.py lines 127-131: if the in-memory token is falsy, load the
persisted one; assign it only when truthy. -/
def loadPhase (s : AppState) : AppState :=
  if tokenTruthy s.access_token then s
  else
    match load_token s.file with
    | some t => if t ≠ "" then { s with access_token := some t } else s
    | none => s

/-- app.py lines 144-169: when the profile is truthy, render the profile
card; a logout click clears both session entries, deletes the persisted
file and reruns; otherwise the frame is rendered. -/
def renderAuthedBody (s : AppState) (i : PassInput) : AppState × Outcome :=
  if profileTruthy s.user_profile then
    if i.logout_clicked then
      ({ access_token := none, user_profile := none,
         file := clear_persisted s.file, query_code := s.query_code }, Outcome.rerun)
    else (s, Outcome.rendered)
  else (s, Outcome.rendered)

/-- app.py lines 134-169: the authenticated branch. With a falsy profile,
fetch it: a truthy result is stored and the profile card rendered; a falsy
result (None, or an empty dict) clears the in-memory token and reruns
(lines 140-142) — note the persisted file is not touched there. -/
def authedStep (s : AppState) (i : PassInput) : AppState × Outcome :=
  if profileTruthy s.user_profile then renderAuthedBody s i
  else
    match get_user_profile i.profile_http with
    | some p =>
      if p ≠ [] then renderAuthedBody { s with user_profile := some p } i
      else ({ s with access_token := none }, Outcome.rerun)
    | none => ({ s with access_token := none }, Outcome.rerun)

/-- app.py `main()` (lines 108-182): one full script pass — callback
handling, persisted-token load, then the authenticated branch or the
login page. -/
def mainStep (s : AppState) (i : PassInput) : AppState × Outcome :=
  match callbackPhase s i with
  | some out => out
  | none =>
    let s2 := loadPhase s
    if tokenTruthy s2.access_token then authedStep s2 i
    else (s2, Outcome.rendered)

/-- Session states reachable by the session manager: a fresh process (both
session entries None, arbitrary surviving token file and query
parameters), script passes under arbitrary environments, and navigation
that changes only the query parameters. -/
inductive Reachable : AppState → Prop where
  | init : ∀ (file : TokenFile) (q : Option String),
      Reachable { access_token := none, user_profile := none, file := file, query_code := q }
  | step : ∀ s i, Reachable s → Reachable (mainStep s i).1
  | navigate : ∀ s q, Reachable s →
      Reachable { access_token := s.access_token, user_profile := s.user_profile,
                  file := s.file, query_code := q }

/-- Invariant maintained by every session-manager operation: the token is
None or truthy, the profile is None or truthy, and a truthy profile
entails a truthy token. -/
def SessInv (s : AppState) : Prop :=
  (s.access_token = none ∨ tokenTruthy s.access_token = true) ∧
  (s.user_profile = none ∨ profileTruthy s.user_profile = true) ∧
  (profileTruthy s.user_profile = true → tokenTruthy s.access_token = true)

/-- Concrete scenario: a fresh state whose URL carries the authorization
code `ABC123`. -/
def sABC : AppState :=
  { access_token := none, user_profile := none, file := none,
    query_code := some "ABC123" }

/-- Concrete scenario: an environment whose token exchange answers HTTP
200 with access_token `tok1`. -/
def iABC : PassInput :=
  { exchange_http := HttpResult.response 200 { access_token := some "tok1" },
    profile_http := HttpResult.exception, logout_clicked := false }

/-- Concrete scenario: an authenticated state whose profile is not yet
loaded, with the token `tok` persisted in the file. -/
def sAuthNoProfile : AppState :=
  { access_token := some "tok", user_profile := none,
    file := some (some "tok"), query_code := none }

/-- Concrete scenario: an environment whose profile fetch answers
HTTP 401. -/
def i401 : PassInput :=
  { exchange_http := HttpResult.exception,
    profile_http := HttpResult.response 401 [], logout_clicked := false }

/-- The state after the failed-profile-fetch pass: in-memory token
cleared, persisted file untouched. -/
def sAfter401 : AppState :=
  { access_token := none, user_profile := none,
    file := some (some "tok"), query_code := none }

/-- Concrete scenario: an authenticated state with a loaded profile. -/
def sAuthProfile : AppState :=
  { access_token := some "tok", user_profile := some [("name", "A")],
    file := some (some "tok"), query_code := none }

/-- Concrete scenario: an environment reporting a logout click. -/
def iLogout : PassInput :=
  { exchange_http := HttpResult.exception, profile_http := HttpResult.exception,
    logout_clicked := true }

/-- Concrete scenario: an environment where every call fails by transport
exception and no button is clicked. -/
def iIdle : PassInput :=
  { exchange_http := HttpResult.exception, profile_http := HttpResult.exception,
    logout_clicked := false }

/-- Concrete scenario: the fresh empty session state. -/
def sFresh : AppState :=
  { access_token := none, user_profile := none, file := none, query_code := none }

/-! ## Lemmas about the sample buffer -/

theorem recordSample_length_le (buf : List PriceSample) (s : PriceSample)
    (h : buf.length ≤ 100) : (recordSample buf s).length ≤ 100 := by
  by_cases hge : buf.length ≥ 100
  · simp [recordSample, hge]
    omega
  · simp [recordSample, hge]
    omega

theorem foldl_recordSample_length_le (samples : List PriceSample) :
    ∀ buf : List PriceSample, buf.length ≤ 100 →
      (List.foldl recordSample buf samples).length ≤ 100 := by
  induction samples with
  | nil => intro buf h; simpa using h
  | cons a tl ih =>
    intro buf h
    exact ih (recordSample buf a) (recordSample_length_le buf a h)

theorem getLast?_recordSample (buf : List PriceSample) (s : PriceSample) :
    (recordSample buf s).getLast? = some s := by
  unfold recordSample
  split <;> simp

theorem mem_recordSample (buf : List PriceSample) (a x : PriceSample)
    (hx : x ∈ recordSample buf a) : x ∈ buf ∨ x = a := by
  unfold recordSample at hx
  split at hx
  · rcases List.mem_append.mp hx with h | h
    · exact Or.inl (List.mem_of_mem_tail h)
    · simp at h
      exact Or.inr h
  · rcases List.mem_append.mp hx with h | h
    · exact Or.inl h
    · simp at h
      exact Or.inr h

theorem pollStep_none (s : PollerState) (now : Nat) (r : HttpResult QuoteBody)
    (h : get_market_data r = none) : pollStep s now r = s := by
  simp [pollStep, h]

theorem pollStep_some_ne (s : PollerState) (now : Nat) (r : HttpResult QuoteBody)
    (p : ℚ) (h : get_market_data r = some p) (hp : p ≠ 0) :
    pollStep s now r =
      { market_data := recordSample s.market_data { time := now, price := p },
        last_price := some p } := by
  simp [pollStep, h, hp]

theorem pollStep_some_zero (s : PollerState) (now : Nat) (r : HttpResult QuoteBody)
    (h : get_market_data r = some 0) : pollStep s now r = s := by
  simp [pollStep, h]

theorem pollStep_lastPrice (s : PollerState) (now : Nat) (r : HttpResult QuoteBody)
    (h : s.last_price = s.market_data.getLast?.map PriceSample.price) :
    (pollStep s now r).last_price =
      (pollStep s now r).market_data.getLast?.map PriceSample.price := by
  cases hg : get_market_data r with
  | none => rw [pollStep_none s now r hg]; exact h
  | some p =>
    by_cases hp : p = 0
    · subst hp
      rw [pollStep_some_zero s now r hg]
      exact h
    · rw [pollStep_some_ne s now r p hg hp]
      simp [getLast?_recordSample]

theorem foldl_pollStep_lastPrice (steps : List (Nat × HttpResult QuoteBody)) :
    ∀ s : PollerState, s.last_price = s.market_data.getLast?.map PriceSample.price →
      (List.foldl (fun st nr => pollStep st nr.1 nr.2) s steps).last_price =
        (List.foldl (fun st nr => pollStep st nr.1 nr.2) s steps).market_data.getLast?.map
          PriceSample.price := by
  induction steps with
  | nil => intro s h; simpa using h
  | cons a tl ih =>
    intro s h
    exact ih (pollStep s a.1 a.2) (pollStep_lastPrice s a.1 a.2 h)

theorem pollStep_prices_ne_zero (s : PollerState) (now : Nat) (r : HttpResult QuoteBody)
    (h : ∀ x ∈ s.market_data, x.price ≠ 0) :
    ∀ x ∈ (pollStep s now r).market_data, x.price ≠ 0 := by
  intro x hx
  cases hg : get_market_data r with
  | none =>
    rw [pollStep_none s now r hg] at hx
    exact h x hx
  | some p =>
    by_cases hp : p = 0
    · subst hp
      rw [pollStep_some_zero s now r hg] at hx
      exact h x hx
    · rw [pollStep_some_ne s now r p hg hp] at hx
      rcases mem_recordSample s.market_data { time := now, price := p } x hx with hmem | hEq
      · exact h x hmem
      · rw [hEq]
        exact hp

theorem foldl_pollStep_prices_ne_zero (steps : List (Nat × HttpResult QuoteBody)) :
    ∀ s : PollerState, (∀ x ∈ s.market_data, x.price ≠ 0) →
      ∀ x ∈ (List.foldl (fun st nr => pollStep st nr.1 nr.2) s steps).market_data,
        x.price ≠ 0 := by
  induction steps with
  | nil => intro s h; simpa using h
  | cons a tl ih =>
    intro s h
    exact ih (pollStep s a.1 a.2) (pollStep_prices_ne_zero s a.1 a.2 h)

theorem computeChange_short (lp : ℚ) (buf : List PriceSample) (h : buf.length ≤ 1) :
    computeChange lp buf = none := by
  match buf with
  | [] => rfl
  | [a] => rfl
  | a :: b :: tl => simp at h

theorem computeChange_two (l : List PriceSample) (p q : PriceSample) :
    computeChange q.price (l ++ [p, q]) =
      some { deltaAbs := |q.price - p.price|,
             signPlus := decide (0 ≤ q.price - p.price),
             pctAbs := |(q.price - p.price) / p.price * 100| } := by
  unfold computeChange
  have h : (l ++ [p, q]).reverse = q :: p :: l.reverse := by simp
  rw [h]

/-! ## Session-manager lemmas -/

theorem tokenTruthy_ne_none {t : Option String} (h : tokenTruthy t = true) : t ≠ none := by
  cases t <;> simp_all [tokenTruthy]

theorem profileTruthy_ne_none {p : Option Profile} (h : profileTruthy p = true) : p ≠ none := by
  cases p <;> simp_all [profileTruthy]

theorem loadPhase_of_truthy (s : AppState) (h : tokenTruthy s.access_token = true) :
    loadPhase s = s := by
  simp [loadPhase, h]

theorem loadPhase_user_profile (s : AppState) :
    (loadPhase s).user_profile = s.user_profile := by
  unfold loadPhase
  split
  · rfl
  · split
    · split <;> rfl
    · rfl

theorem loadPhase_token (s : AppState) :
    (loadPhase s).access_token = s.access_token ∨
      tokenTruthy (loadPhase s).access_token = true := by
  unfold loadPhase
  split
  · exact Or.inl rfl
  · split
    · rename_i t _
      split
      · rename_i ht
        exact Or.inr (by simp [tokenTruthy, ht])
      · exact Or.inl rfl
    · exact Or.inl rfl

theorem sessInv_loadPhase (s : AppState) (h : SessInv s) : SessInv (loadPhase s) := by
  obtain ⟨h1, h2, h3⟩ := h
  by_cases ht : tokenTruthy s.access_token = true
  · rw [loadPhase_of_truthy s ht]
    exact ⟨h1, h2, h3⟩
  · refine ⟨?_, ?_, ?_⟩
    · rcases loadPhase_token s with he | he
      · rw [he]
        exact h1
      · exact Or.inr he
    · rw [loadPhase_user_profile s]
      exact h2
    · intro hp
      rw [loadPhase_user_profile s] at hp
      exact absurd (h3 hp) ht

theorem callbackPhase_rerun (s : AppState) (i : PassInput) (out : AppState × Outcome)
    (h : callbackPhase s i = some out) : out.2 = Outcome.rerun := by
  unfold callbackPhase at h
  split at h
  · split at h
    · split at h
      · simp at h
        rw [← h]
      · exact absurd h (by simp)
    · exact absurd h (by simp)
  · exact absurd h (by simp)

theorem callbackPhase_inv (s : AppState) (i : PassInput) (out : AppState × Outcome)
    (hs : SessInv s) (h : callbackPhase s i = some out) : SessInv out.1 := by
  unfold callbackPhase at h
  split at h
  · split at h
    · split at h
      · rename_i t _ ht
        simp at h
        rw [← h]
        refine ⟨Or.inr (by simp [tokenTruthy, ht]), hs.2.1, ?_⟩
        intro _
        simp [tokenTruthy, ht]
      · exact absurd h (by simp)
    · exact absurd h (by simp)
  · exact absurd h (by simp)

theorem sessInv_renderAuthedBody (s : AppState) (i : PassInput) (h : SessInv s) :
    SessInv (renderAuthedBody s i).1 := by
  unfold renderAuthedBody
  split
  · split
    · exact ⟨Or.inl rfl, Or.inl rfl, by simp [profileTruthy]⟩
    · exact h
  · exact h

theorem sessInv_authedStep (s : AppState) (i : PassInput) (h : SessInv s)
    (ht : tokenTruthy s.access_token = true) : SessInv (authedStep s i).1 := by
  unfold authedStep
  split
  · exact sessInv_renderAuthedBody s i h
  · split
    · rename_i p _
      split
      · rename_i hp
        refine sessInv_renderAuthedBody _ i ?_
        exact ⟨h.1, Or.inr (by simp [profileTruthy, hp]), fun _ => ht⟩
      · exact ⟨Or.inl rfl, h.2.1, fun hp => absurd hp (by rename_i hcond _; simp_all)⟩
    · refine ⟨Or.inl rfl, h.2.1, ?_⟩
      rename_i hcond _
      intro hp
      exact absurd hp (by simp_all)

theorem sessInv_mainStep (s : AppState) (i : PassInput) (h : SessInv s) :
    SessInv (mainStep s i).1 := by
  unfold mainStep
  cases hcb : callbackPhase s i with
  | some out => exact callbackPhase_inv s i out h hcb
  | none =>
    by_cases ht : tokenTruthy (loadPhase s).access_token = true
    · simp only [ht, if_true]
      exact sessInv_authedStep (loadPhase s) i (sessInv_loadPhase s h) ht
    · simp only [ht, if_false]
      exact sessInv_loadPhase s h

theorem sessInv_reachable (s : AppState) (h : Reachable s) : SessInv s := by
  induction h with
  | init file q =>
    exact ⟨Or.inl rfl, Or.inl rfl, by simp [profileTruthy]⟩
  | step s i hr ih => exact sessInv_mainStep s i ih
  | navigate s q hr ih => exact ⟨ih.1, ih.2.1, ih.2.2⟩

theorem renderAuthedBody_rendered (s : AppState) (i : PassInput)
    (hp : profileTruthy s.user_profile = true)
    (hr : (renderAuthedBody s i).2 = Outcome.rendered) :
    (renderAuthedBody s i).1 = s := by
  unfold renderAuthedBody at hr ⊢
  rw [if_pos hp] at hr ⊢
  by_cases hl : i.logout_clicked = true
  · rw [if_pos hl] at hr
    simp at hr
  · rw [if_neg hl]

theorem authedStep_rendered (s : AppState) (i : PassInput)
    (ht : tokenTruthy s.access_token = true)
    (hr : (authedStep s i).2 = Outcome.rendered) :
    (authedStep s i).1.access_token ≠ none ∧ (authedStep s i).1.user_profile ≠ none := by
  by_cases hp : profileTruthy s.user_profile = true
  · have he : authedStep s i = renderAuthedBody s i := by
      simp [authedStep, hp]
    rw [he] at hr ⊢
    rw [renderAuthedBody_rendered s i hp hr]
    exact ⟨tokenTruthy_ne_none ht, profileTruthy_ne_none hp⟩
  · cases hgp : get_user_profile i.profile_http with
    | some p =>
      by_cases hpne : p ≠ []
      · have he : authedStep s i = renderAuthedBody { s with user_profile := some p } i := by
          simp [authedStep, hp, hgp, hpne]
        rw [he] at hr ⊢
        have hp2 : profileTruthy ({ s with user_profile := some p } : AppState).user_profile
            = true := by
          simp [profileTruthy, hpne]
        rw [renderAuthedBody_rendered { s with user_profile := some p } i hp2 hr]
        exact ⟨tokenTruthy_ne_none ht, by simp⟩
      · have he : authedStep s i = ({ s with access_token := none }, Outcome.rerun) := by
          simp [authedStep, hp, hgp, hpne]
        rw [he] at hr
        simp at hr
    | none =>
      have he : authedStep s i = ({ s with access_token := none }, Outcome.rerun) := by
        simp [authedStep, hp, hgp]
      rw [he] at hr
      simp at hr

/-! ## Claim theorems -/

/-- C2: for every sequence of recordSample calls starting from the empty
buffer, the stored sequence length never exceeds 100; and an append to a
buffer already holding 100 samples evicts exactly the oldest sample (the
head), preserving the relative order of the rest (the result is
`buf.tail ++ [s]`). -/
theorem C2_ring_buffer :
    (∀ samples : List PriceSample, (List.foldl recordSample [] samples).length ≤ 100) ∧
    (∀ (buf : List PriceSample) (s : PriceSample), buf.length = 100 →
      recordSample buf s = buf.tail ++ [s]) := by
  constructor
  · intro samples
    exact foldl_recordSample_length_le samples [] (by simp)
  · intro buf s h
    simp [recordSample, h]

theorem C2_ring_buffer_witness :
    (List.foldl recordSample [] [{ time := 0, price := 1 }]).length ≤ 100 ∧
    recordSample buf100 { time := 100, price := 2 } =
      buf100.tail ++ [{ time := 100, price := 2 }] :=
  ⟨C2_ring_buffer.1 [{ time := 0, price := 1 }],
   C2_ring_buffer.2 buf100 { time := 100, price := 2 } (by simp [buf100])⟩

/-- C3: computeChange yields no value on a buffer of 0 or 1 samples; on a
buffer ending in previous sample `p` and latest sample `q` (with the
session last price equal to the latest price, as the poller maintains, and
a positive previous price), the rendered change carries the value
`latest - previous`, the rendered percentage carries
`delta / previous * 100`, and the displayed sign is `'+'` exactly when the
delta is nonnegative; and along every polling history the session
last price equals the price of the latest buffered sample. -/
theorem C3_computeChange :
    (∀ (lp : ℚ) (buf : List PriceSample), buf.length ≤ 1 → computeChange lp buf = none) ∧
    (∀ (l : List PriceSample) (p q : PriceSample), 0 < p.price →
      ∃ c, computeChange q.price (l ++ [p, q]) = some c ∧
        signedDelta c = q.price - p.price ∧
        signedPct c = (q.price - p.price) / p.price * 100 ∧
        (c.signPlus = true ↔ 0 ≤ q.price - p.price)) ∧
    (∀ steps : List (Nat × HttpResult QuoteBody),
      (foldPoll steps).last_price =
        (foldPoll steps).market_data.getLast?.map PriceSample.price) := by
  refine ⟨computeChange_short, ?_, ?_⟩
  · intro l p q hp
    refine ⟨_, computeChange_two l p q, ?_, ?_, ?_⟩
    · by_cases hc : 0 ≤ q.price - p.price
      · simp [signedDelta, hc, abs_of_nonneg hc]
      · simp [signedDelta, hc, abs_of_neg (not_le.mp hc)]
    · by_cases hc : 0 ≤ q.price - p.price
      · have hnn : 0 ≤ (q.price - p.price) / p.price * 100 :=
          mul_nonneg (div_nonneg hc (le_of_lt hp)) (by norm_num)
        simp [signedPct, hc, abs_of_nonneg hnn]
      · have hneg : (q.price - p.price) / p.price * 100 < 0 :=
          mul_neg_of_neg_of_pos (div_neg_of_neg_of_pos (not_le.mp hc) hp) (by norm_num)
        simp [signedPct, hc, abs_of_neg hneg]
    · simp
  · intro steps
    exact foldl_pollStep_lastPrice steps pollInit rfl

theorem C3_computeChange_witness :
    computeChange 5 [] = none ∧
    ∃ c, computeChange 102 [{ time := 0, price := 100 }, { time := 1, price := 102 }] = some c ∧
      signedDelta c = 102 - 100 ∧
      signedPct c = (102 - 100) / 100 * 100 ∧
      (c.signPlus = true ↔ (0 : ℚ) ≤ 102 - 100) :=
  ⟨C3_computeChange.1 5 [] (by simp),
   C3_computeChange.2.1 [] { time := 0, price := 100 } { time := 1, price := 102 }
     (by norm_num)⟩

/-- C8: every failing positions fetch — a response with a non-2xx status,
or a transport failure — returns the empty list (the function is total and
returns a sequence, not an error). -/
theorem C8_positions_failure_empty :
    (∀ (status : Nat) (body : PositionsBody), ¬ (200 ≤ status ∧ status ≤ 299) →
      get_positions (HttpResult.response status body) = []) ∧
    get_positions (HttpResult.exception : HttpResult PositionsBody) = [] := by
  constructor
  · intro status body h
    have hne : status ≠ 200 := by omega
    simp [get_positions, hne]
  · rfl

theorem C8_positions_failure_empty_witness :
    get_positions (HttpResult.response 404 { data := some [] }) = [] :=
  C8_positions_failure_empty.1 404 { data := some [] } (by omega)

/-- C9: a 200 quote response whose extracted LTP is zero leaves the poller
state unchanged, exactly as a transport failure does, and surfaces no
error; a 200 response whose body lacks the data object or the ltp key also
leaves the state unchanged, exactly as a transport failure does; and along
every polling history no buffered sample has price zero. -/
theorem C9_zero_ltp :
    (∀ (s : PollerState) (now : Nat) (b : QuoteBody),
      get_market_data (HttpResult.response 200 b) = some 0 →
        pollStep s now (HttpResult.response 200 b) = s ∧
        pollStep s now (HttpResult.response 200 b) = pollStep s now HttpResult.exception ∧
        get_market_data_shows_error (HttpResult.response 200 b) = false) ∧
    (∀ (s : PollerState) (now : Nat) (b : QuoteBody),
      b.data = none ∨ b.data = some { ltp := none } →
        pollStep s now (HttpResult.response 200 b) = s ∧
        pollStep s now (HttpResult.response 200 b) = pollStep s now HttpResult.exception) ∧
    (∀ steps : List (Nat × HttpResult QuoteBody),
      ∀ x ∈ (foldPoll steps).market_data, x.price ≠ 0) := by
  refine ⟨?_, ?_, ?_⟩
  · intro s now b hg
    refine ⟨?_, ?_, rfl⟩
    · simp [pollStep, hg]
    · have h2 : pollStep s now (HttpResult.exception : HttpResult QuoteBody) = s := rfl
      rw [h2]
      simp [pollStep, hg]
  · intro s now b hb
    obtain ⟨bd⟩ := b
    rcases hb with hb | hb <;> simp at hb <;> subst hb <;> exact ⟨rfl, rfl⟩
  · intro steps
    exact foldl_pollStep_prices_ne_zero steps pollInit (by simp [pollInit])

theorem C9_zero_ltp_witness :
    (pollStep pollInit 0 (HttpResult.response 200 { data := some { ltp := some 0 } }) = pollInit ∧
     pollStep pollInit 0 (HttpResult.response 200 { data := some { ltp := some 0 } }) =
       pollStep pollInit 0 HttpResult.exception ∧
     get_market_data_shows_error
       (HttpResult.response 200 { data := some { ltp := some 0 } }) = false) ∧
    (pollStep pollInit 0 (HttpResult.response 200 { data := none }) = pollInit ∧
     pollStep pollInit 0 (HttpResult.response 200 { data := none }) =
       pollStep pollInit 0 HttpResult.exception) ∧
    ({ time := 0, price := 5 } : PriceSample).price ≠ 0 :=
  ⟨C9_zero_ltp.1 pollInit 0 { data := some { ltp := some 0 } } rfl,
   C9_zero_ltp.2.1 pollInit 0 { data := none } (Or.inl rfl),
   C9_zero_ltp.2.2 [(0, HttpResult.response 200 { data := some { ltp := some 5 } })]
     { time := 0, price := 5 }
     (by simp [foldPoll, pollStep, get_market_data, recordSample, pollInit])⟩

/-- C4: a pass that arrives with an authorization code and whose exchange
succeeds with a truthy token stores the token in session state, persists
it (the file then holds the mapping `access_token: t`, and loading it
back yields `t`), clears the code from the query parameters, is in the
authenticated state (truthy in-memory credential), and ends in a rerun
request. -/
theorem C4_exchange_success :
    ∀ (s : AppState) (i : PassInput) (c t : String),
      s.query_code = some c → get_access_token i.exchange_http = some t → t ≠ "" →
      mainStep s i =
        ({ access_token := some t, user_profile := s.user_profile,
           file := some (some t), query_code := none }, Outcome.rerun) ∧
      load_token (mainStep s i).1.file = some t ∧
      tokenTruthy (mainStep s i).1.access_token = true := by
  intro s i c t hq he ht
  have hcb : callbackPhase s i =
      some ({ access_token := some t, user_profile := s.user_profile,
              file := some (some t), query_code := none }, Outcome.rerun) := by
    simp [callbackPhase, hq, he, ht, save_token]
  have hm : mainStep s i =
      ({ access_token := some t, user_profile := s.user_profile,
         file := some (some t), query_code := none }, Outcome.rerun) := by
    simp [mainStep, hcb]
  refine ⟨hm, ?_, ?_⟩
  · rw [hm]
    rfl
  · rw [hm]
    simp [tokenTruthy, ht]

theorem C4_exchange_success_witness :
    mainStep sABC iABC =
      ({ access_token := some "tok1", user_profile := sABC.user_profile,
         file := some (some "tok1"), query_code := none }, Outcome.rerun) ∧
    load_token (mainStep sABC iABC).1.file = some "tok1" ∧
    tokenTruthy (mainStep sABC iABC).1.access_token = true :=
  C4_exchange_success sABC iABC "ABC123" "tok1" rfl rfl (by decide)

/-- C5: at every fully rendered frame produced from a reachable session
state (rendered means the pass ended without an `st.rerun`, so no profile
fetch is pending), the in-memory credential is non-null exactly when the
user profile is non-null. -/
theorem C5_credential_profile_iff :
    ∀ (s : AppState) (i : PassInput), Reachable s →
      (mainStep s i).2 = Outcome.rendered →
      ((mainStep s i).1.access_token ≠ none ↔ (mainStep s i).1.user_profile ≠ none) := by
  intro s i hrs hr
  have hinv : SessInv s := sessInv_reachable s hrs
  unfold mainStep at hr ⊢
  cases hcb : callbackPhase s i with
  | some out =>
    rw [hcb] at hr
    exact absurd (callbackPhase_rerun s i out hcb) (by simp_all)
  | none =>
    rw [hcb] at hr
    simp only at hr ⊢
    have hinv2 : SessInv (loadPhase s) := sessInv_loadPhase s hinv
    by_cases ht : tokenTruthy (loadPhase s).access_token = true
    · rw [if_pos ht] at hr ⊢
      have hout := authedStep_rendered (loadPhase s) i ht hr
      simp [hout.1, hout.2]
    · rw [if_neg ht] at hr ⊢
      have h1 : (loadPhase s).access_token = none := by
        rcases hinv2.1 with he | he
        · exact he
        · exact absurd he ht
      have h2 : (loadPhase s).user_profile = none := by
        rcases hinv2.2.1 with he | he
        · exact he
        · exact absurd (hinv2.2.2 he) ht
      simp [h1, h2]

theorem C5_credential_profile_iff_witness :
    (mainStep sFresh iIdle).1.access_token ≠ none ↔
      (mainStep sFresh iIdle).1.user_profile ≠ none :=
  C5_credential_profile_iff sFresh iIdle (Reachable.init none none) rfl

/-- C6: persisting a token and then loading from the resulting file (in a
fresh process the file is all that survives) yields the same token
string, whatever the file held before. -/
theorem C6_persist_load_roundtrip :
    ∀ (t : String) (file : TokenFile), load_token (save_token t file) = some t := by
  intro t file
  rfl

/-- C7: deleting the persisted token and then loading yields no value,
whatever was persisted before (including nothing). -/
theorem C7_clear_then_load_none :
    ∀ file : TokenFile, load_token (clear_persisted file) = none := by
  intro file
  rfl

/-- C1: the claim says a failed profile fetch while authenticated deletes
the persisted token storage, so that loading it afterwards yields no
credential. The code (app.py lines 140-142) only clears the in-memory
token and reruns: evaluated at the HTTP-401 scenario, the file still
holds the token, loading it still yields the token, and the very next
pass reproduces the same state and rerun — the failure loops instead of
settling in the unauthenticated state. -/
theorem C1_profile_fetch_failure_keeps_file :
    mainStep sAuthNoProfile i401 = (sAfter401, Outcome.rerun) ∧
    load_token (mainStep sAuthNoProfile i401).1.file = some "tok" ∧
    mainStep sAfter401 i401 = (sAfter401, Outcome.rerun) := by
  refine ⟨?_, ?_, ?_⟩ <;> rfl

/-- C10: the dashboard's login guard (dashboard.py lines 97-99) fires
exactly when the `access_token` key is absent from session state; a
present-but-None entry passes the guard and the page polls with the None
credential (sending the header `Bearer None`); and both the logout pass
and the failed-profile-fetch pass of app.py leave exactly such a
present-but-None entry. -/
theorem C10_dashboard_guard :
    (∀ entry : Option (Option String), dashAuthGuardFires entry = true ↔ entry = none) ∧
    dashboardEntry (some none) = DashOutcome.polled none ∧
    get_headers_auth none = "Bearer None" ∧
    (∀ (s : AppState) (i : PassInput),
      s.query_code = none → tokenTruthy s.access_token = true →
      profileTruthy s.user_profile = true → i.logout_clicked = true →
      dashboardEntry (some ((mainStep s i).1.access_token)) = DashOutcome.polled none) ∧
    (∀ (s : AppState) (i : PassInput),
      s.query_code = none → tokenTruthy s.access_token = true →
      s.user_profile = none → get_user_profile i.profile_http = none →
      dashboardEntry (some ((mainStep s i).1.access_token)) = DashOutcome.polled none) := by
  refine ⟨?_, rfl, rfl, ?_, ?_⟩
  · intro entry
    cases entry <;> simp [dashAuthGuardFires]
  · intro s i hq ht hp hl
    have hm : (mainStep s i).1.access_token = none := by
      simp [mainStep, callbackPhase, hq, loadPhase_of_truthy s ht, ht, authedStep, hp,
        renderAuthedBody, hl]
    rw [hm]
    rfl
  · intro s i hq ht hp hgp
    have hnp : profileTruthy s.user_profile = false := by
      rw [hp]
      rfl
    have hm : (mainStep s i).1.access_token = none := by
      simp [mainStep, callbackPhase, hq, loadPhase_of_truthy s ht, ht, authedStep, hnp, hgp]
    rw [hm]
    rfl

theorem C10_dashboard_guard_witness :
    dashboardEntry (some ((mainStep sAuthProfile iLogout).1.access_token)) =
      DashOutcome.polled none ∧
    dashboardEntry (some ((mainStep sAuthNoProfile iIdle).1.access_token)) =
      DashOutcome.polled none :=
  ⟨C10_dashboard_guard.2.2.2.1 sAuthProfile iLogout rfl (by decide) (by decide) rfl,
   C10_dashboard_guard.2.2.2.2 sAuthNoProfile iIdle rfl (by decide) rfl rfl⟩

end AlgoDesk
